import Mathlib

/-!
Verification development for the Polymarket insider-activity sentinel
(`backend/app.py`): a streaming pipeline that normalizes heterogeneous
trade events, classifies them against risk thresholds, persists flagged
events and broadcasts every surviving event to live subscribers.

The Python source is shallowly embedded: JSON payloads become the
inductive `JVal`, Python floats become `ℚ`, the `or`-chains of the
normalizer become `firstTruthy` over Python truthiness, and the
side-effecting `analyze_trade` becomes a pure function returning the
ordered list of persistence/broadcast effects it performs.
-/

namespace Sentinel

/-- A JSON value as produced by `json.loads`: the payload shapes the
ingestion loop and normalizer operate on. -/
inductive JVal where
  | num (q : ℚ)
  | str (s : String)
  | bool (b : Bool)
  | null
  | arr (xs : List JVal)
  | obj (fields : List (String × JVal))

/-- Python truthiness (`bool(v)`) for the payload values that can appear
after `json.loads`: zero, empty string, `False`, `None` and empty
containers are falsy. -/
def JVal.truthy : JVal → Bool
  | .num q => q ≠ 0
  | .str s => s ≠ ""
  | .bool b => b
  | .null => false
  | .arr xs => !xs.isEmpty
  | .obj fs => !fs.isEmpty

/-- A raw event as seen by `analyze_trade`: a Python dict, i.e. an
association list from keys to JSON values (first binding wins on `get`). -/
abbrev RawEvent := List (String × JVal)

/-- `trade_data.get(k)`: `some v` when the key is present (even when the
value is falsy), `none` when absent. -/
def getField (fs : RawEvent) (k : String) : Option JVal :=
  (fs.find? (fun p => p.1 = k)).map (fun p => p.2)

/-- One link of a Python `or`-chain: the value of key `k` if it is
present AND truthy, otherwise `none` (Python `or` skips falsy operands). -/
def truthyGet (fs : RawEvent) (k : String) : Option JVal :=
  match getField fs k with
  | some v => if v.truthy then some v else none
  | none => none

/-- The normalizer's `or`-chain over a list of alias keys: the first
alias bound to a truthy value wins; absent or falsy aliases are skipped. -/
def firstTruthy (fs : RawEvent) : List String → Option JVal
  | [] => none
  | k :: ks =>
    match truthyGet fs k with
    | some v => some v
    | none => firstTruthy fs ks

/-- Digits-to-number accumulator used by the model of Python `float(str)`;
fails on any non-digit character (an empty list yields 0, callers check
emptiness). -/
def digitsVal (cs : List Char) : Option ℕ :=
  cs.foldlM (fun a c => if c.isDigit then some (a * 10 + (c.toNat - 48)) else none) 0

/-- Model of Python `float(s)` on decimal literals: optional surrounding
whitespace, optional sign, integer part, optional fractional part.
Anything else raises `ValueError` (modelled as `none`). -/
def pyFloatOfString (s : String) : Option ℚ :=
  let cs := s.trim.toList
  let sb : ℚ × List Char :=
    match cs with
    | '-' :: r => (-1, r)
    | '+' :: r => (1, r)
    | _ => (1, cs)
  let ip := sb.2.takeWhile (fun c => c ≠ '.')
  let rest := sb.2.dropWhile (fun c => c ≠ '.')
  let fp : Option (List Char) :=
    match rest with
    | [] => some []
    | _ :: r => if r.contains '.' then none else some r
  match fp with
  | none => none
  | some f =>
    if ip.isEmpty && f.isEmpty then none
    else
      match digitsVal ip, digitsVal f with
      | some i, some fv => some (sb.1 * ((i : ℚ) + (fv : ℚ) / (10 : ℚ) ^ f.length))
      | _, _ => none

/-- Model of Python `float(v)` on a JSON value: numbers pass through,
numeric strings are parsed, booleans coerce to 0/1, and `None`, lists
and dicts raise (`none`). -/
def pyFloat : JVal → Option ℚ
  | .num q => some q
  | .str s => pyFloatOfString s
  | .bool b => some (if b then 1 else 0)
  | .null => none
  | .arr _ => none
  | .obj _ => none

/-- Alias priority for the trader identity (`analyze_trade`, maker_address chain). -/
def traderAliases : List String :=
  ["maker_address", "maker", "user", "trader", "address", "taker_address"]

/-- Alias priority for the trade size. -/
def sizeAliases : List String := ["size", "amount", "quantity", "volume"]

/-- Alias priority for the execution price. -/
def priceAliases : List String := ["price", "price_per_share", "execution_price"]

/-- Alias priority for a directly-provided USD notional. -/
def sizeUsdAliases : List String := ["size_usd", "amount_usd", "value"]

/-- Alias priority for the market identifier. -/
def marketAliases : List String :=
  ["market", "market_id", "condition_id", "asset_id", "question_id"]

/-- `maker_address = trade_data.get('maker_address') or ... or "0x..."`. -/
def extractTrader (fs : RawEvent) : JVal :=
  (firstTruthy fs traderAliases).getD (.str "0x...")

/-- `size = float(trade_data.get('size') or ... or 0)`; `none` models a
`ValueError` from `float`. -/
def extractRawSize (fs : RawEvent) : Option ℚ :=
  match firstTruthy fs sizeAliases with
  | some v => pyFloat v
  | none => some 0

/-- `price = float(trade_data.get('price') or ... or 0)`. -/
def extractPrice (fs : RawEvent) : Option ℚ :=
  match firstTruthy fs priceAliases with
  | some v => pyFloat v
  | none => some 0

/-- `size_usd = float(trade_data.get('size_usd') or ... or size * price)`:
the product is the final operand of the `or`-chain, so it is used whenever
every direct alias is absent or falsy. -/
def extractSizeUsd (fs : RawEvent) (size price : ℚ) : Option ℚ :=
  match firstTruthy fs sizeUsdAliases with
  | some v => pyFloat v
  | none => some (size * price)

/-- `market_slug = trade_data.get('market') or ... or 'unknown_market'`. -/
def extractMarket (fs : RawEvent) : JVal :=
  (firstTruthy fs marketAliases).getD (.str "unknown_market")

/-- The canonical trade produced by the normalization block of
`analyze_trade` (lines 155–196). -/
structure CanonicalTrade where
  trader : JVal
  size : ℚ
  price : ℚ
  sizeUsd : ℚ
  market : JVal

/-- The normalization block of `analyze_trade`: `none` when one of the
`float(...)` conversions raises (the outer `except` then swallows the
event); otherwise the canonical trade. -/
def normalize (fs : RawEvent) : Option CanonicalTrade := do
  let size ← extractRawSize fs
  let price ← extractPrice fs
  let sizeUsd ← extractSizeUsd fs size price
  return { trader := extractTrader fs, size := size, price := price,
           sizeUsd := sizeUsd, market := extractMarket fs }

/-- `SUSPICIOUS_THRESHOLD_USD = 10000`. -/
def SUSPICIOUS_THRESHOLD_USD : ℚ := 10000

/-- `NEW_ACCOUNT_HOURS = 48`. -/
def NEW_ACCOUNT_HOURS : ℚ := 48

/-- The noise-filter floor: `if size_usd < 100: return`. -/
def NOISE_FLOOR : ℚ := 100

/-- The risk heuristic of `analyze_trade` (line 218) as a standalone pure
function of the USD notional and the resolved account age: the alert's
final `riskProfile` field. -/
def classify (size_usd age_hours : ℚ) : String :=
  if age_hours ≤ NEW_ACCOUNT_HOURS ∧ size_usd ≥ SUSPICIOUS_THRESHOLD_USD then "insider"
  else "normal"

/-- `trade_data.get('side', 'BUY').upper()`: absent key yields `"BUY"`;
a string value is upper-cased; a non-string value raises
(`AttributeError` on `.upper`), modelled as `none`. -/
def extractSide (fs : RawEvent) : Option String :=
  match getField fs "side" with
  | none => some "BUY"
  | some (.str s) => some s.toUpper
  | some _ => none

/-- The alert object as constructed at lines 206–215, before the
heuristics check: `riskProfile` starts out `"normal"` and is overwritten
with `"insider"` inside the heuristics branch.  The time-derived `id`
and `timestamp` fields are omitted from the model. -/
structure Alert where
  trader : JVal
  market : JVal
  amount : ℚ
  type : String
  accountAgeHours : ℚ
  riskProfile : String

/-- One observable downstream write of `analyze_trade`: an insert into
the `suspicious_trades` table, or one `manager.broadcast` call. -/
inductive Effect where
  | persist (wallet : JVal) (amountUsd : ℚ) (ageHours : ℚ) (market : JVal)
  | broadcast (a : Alert)

/-- `analyze_trade`, embedded as a pure function returning the ordered
list of effects it performs.  `persistOk` injects the outcome of the
`db.execute`/`db.commit` pair (when it raises, the single `try/except`
wrapping the whole function body catches the error after logging it, so
the trailing `manager.broadcast` is never reached).  `age_hours` is the
value returned by `get_wallet_age_hours`.  A non-dict argument raises
`AttributeError` on `.get` and is swallowed by the same `except`. -/
def analyze_trade (persistOk : Bool) (age_hours : ℚ) (trade_data : JVal) : List Effect :=
  match trade_data with
  | .obj fs =>
    match normalize fs with
    | none => []
    | some t =>
      if t.sizeUsd < NOISE_FLOOR then []
      else
        match extractSide fs with
        | none => []
        | some side =>
          let alert : Alert :=
            { trader := t.trader, market := t.market, amount := t.sizeUsd,
              type := side, accountAgeHours := age_hours, riskProfile := "normal" }
          if age_hours ≤ NEW_ACCOUNT_HOURS ∧ t.sizeUsd ≥ SUSPICIOUS_THRESHOLD_USD then
            if persistOk then
              [Effect.persist t.trader t.sizeUsd age_hours t.market,
               Effect.broadcast { alert with riskProfile := "insider" }]
            else []
          else
            [Effect.broadcast alert]
  | _ => []

/-- Sequential processing of a batch of events by the ingestion loop:
each event is analyzed independently (every per-event error is caught
inside `analyze_trade`'s own `try/except`) and the effects concatenate
in order. -/
def processTrades (events : List (Bool × ℚ × JVal)) : List Effect :=
  events.flatMap (fun e => analyze_trade e.1 e.2.1 e.2.2)

/-- The Broadcast Hub: `ConnectionManager` holds the list of connected
React-client sockets (modelled by ids). -/
structure ConnectionManager where
  active_connections : List ℕ

/-- `ConnectionManager.broadcast`: iterate over `active_connections`,
`send_text` to each, and `pass` on any per-connection exception.
`sendOk c = true` means `send_text` to connection `c` succeeds.  Returns
the list of connections that received the payload together with the
manager state after the call (the body never mutates the list). -/
def ConnectionManager.broadcast (m : ConnectionManager) (sendOk : ℕ → Bool) :
    List ℕ × ConnectionManager :=
  (m.active_connections.filter sendOk, m)

/-- `ConnectionManager.disconnect`: remove one connection from the list. -/
def ConnectionManager.disconnect (m : ConnectionManager) (c : ℕ) : ConnectionManager :=
  ⟨m.active_connections.erase c⟩

/-- Outcome of one iteration of the `while True` connection loop of
`polymarket_sentinel`: a generic connect failure or timeout, an
`InvalidURI` error, or a successful connection that is eventually closed
by the server. -/
inductive ConnOutcome where
  | connectFail
  | invalidURI
  | connectedThenClosed
  deriving DecidableEq

/-- `retry_delay = 5`, the initial (floor) reconnect delay. -/
def RETRY_FLOOR : ℚ := 5

/-- `max_retry_delay = 60`, the backoff cap. -/
def MAX_RETRY_DELAY : ℚ := 60

/-- `retry_delay = min(retry_delay * 1.5, max_retry_delay)` (line 374). -/
def backoffStep (d : ℚ) : ℚ := min (d * (3 / 2)) MAX_RETRY_DELAY

/-- The sequence of sleeps performed by `polymarket_sentinel`'s retry
loop, given the current `retry_delay` and the outcomes of successive
iterations: a generic failure sleeps `retry_delay` and then multiplies
it; `InvalidURI` sleeps a fixed 30s and `continue`s (skipping both the
shared sleep and the multiplication); a successful connection resets
`retry_delay` to 5 (line 276) and, once the server closes the socket,
falls through to the same sleep-then-multiply epilogue. -/
def sentinelWaits : ℚ → List ConnOutcome → List ℚ
  | _, [] => []
  | d, .connectFail :: rest => d :: sentinelWaits (backoffStep d) rest
  | d, .invalidURI :: rest => 30 :: sentinelWaits d rest
  | _, .connectedThenClosed :: rest =>
      RETRY_FLOOR :: sentinelWaits (backoffStep RETRY_FLOOR) rest

/-- ASCII lower-casing on character codes (`str.lower()` on the
alphabet relevant to the `'trades'` membership test). -/
def lowerCode (c : Char) : ℕ :=
  if 65 ≤ c.toNat ∧ c.toNat ≤ 90 then c.toNat + 32 else c.toNat

/-- Substring test for the word `trades` after lower-casing, modelling
Python's `'trades' in s.lower()`. -/
def hasTradesSub (s : String) : Bool :=
  let cs := s.toList.map lowerCode
  let t := "trades".toList.map lowerCode
  (List.range (cs.length + 1)).any (fun i => (cs.drop i).take t.length = t)

mutual

/-- `'trades' in str(data).lower()`, embedded structurally: the word
`trades` is purely alphabetic, and in the `str()` rendering of a decoded
JSON payload every maximal alphabetic run lies inside a single key or
string value (the surrounding punctuation of the rendering contributes
no letters beyond `true`/`false`/`none` and digit/exponent characters,
none of which can complete the word), so the containment check recurses
over keys and string values. -/
def jvalHasTradesWord : JVal → Bool
  | .num _ => false
  | .str s => hasTradesSub s
  | .bool _ => false
  | .null => false
  | .arr xs => listHasTradesWord xs
  | .obj fs => objHasTradesWord fs

/-- `jvalHasTradesWord` over the elements of a JSON array. -/
def listHasTradesWord : List JVal → Bool
  | [] => false
  | x :: xs => jvalHasTradesWord x || listHasTradesWord xs

/-- `jvalHasTradesWord` over the key/value pairs of a JSON object. -/
def objHasTradesWord : List (String × JVal) → Bool
  | [] => false
  | (k, v) :: fs => hasTradesSub k || jvalHasTradesWord v || objHasTradesWord fs

end

/-- `data.get('type') in ['fill', 'trade', 'match']`. -/
def isTradeTyped (fs : RawEvent) : Bool :=
  match getField fs "type" with
  | some (.str s) => s = "fill" || s = "trade" || s = "match"
  | _ => false

/-- `data.get('channel') == 'trades'`. -/
def channelIsTrades (fs : RawEvent) : Bool :=
  match getField fs "channel" with
  | some (.str s) => s = "trades"
  | _ => false

/-- `True` exactly for dict payloads. -/
def JVal.isObj : JVal → Bool
  | .obj _ => true
  | _ => false

/-- The message-dispatch logic of `polymarket_sentinel` (lines 317–342),
returning the list of values handed to `analyze_trade`, in order:

* a dict with a recognized trade marker (`type` in `fill/trade/match`
  or a `maker_address`/`size` key) is one event;
* otherwise a dict marked as trades (`channel == 'trades'` or the word
  `trades` occurring in its rendering) has its `data` (else `payload`,
  else `[data]`) field dispatched element-wise when it is a list, or as
  a single event otherwise;
* any other dict is attempted as a single event;
* a top-level array dispatches only its dict elements;
* any other payload (number, string, bool, null) dispatches nothing. -/
def dispatchMessage (data : JVal) : List JVal :=
  match data with
  | .obj fs =>
    if isTradeTyped fs || (getField fs "maker_address").isSome
        || (getField fs "size").isSome then
      [data]
    else if channelIsTrades fs || jvalHasTradesWord data then
      match (getField fs "data").getD ((getField fs "payload").getD (.arr [data])) with
      | .arr xs => xs
      | t => [t]
    else
      [data]
  | .arr xs => xs.filter JVal.isObj
  | _ => []

/-- Outcome of the slow RPC path of `get_wallet_age_hours`: a first-seen
timestamp, or any raised error. -/
inductive Lookup where
  | ok (first_seen_ts : ℚ)
  | err
  deriving DecidableEq

/-- One Redis entry for a wallet's `first_seen` key: the stored
timestamp and its absolute expiry instant. -/
structure CacheEntry where
  value : ℚ
  expiresAt : ℚ
  deriving DecidableEq

/-- `ex=86400`: the 24-hour cache TTL. -/
def CACHE_TTL_SECONDS : ℚ := 86400

/-- `redis.get(cache_key)` at instant `now`: the stored value while the
entry has not expired (the stored string `str(first_seen_ts)` is always
non-empty, so the `if cached_timestamp:` truthiness test is equivalent
to presence). -/
def cacheGet (now : ℚ) (c : Option CacheEntry) : Option ℚ :=
  match c with
  | some e => if now < e.expiresAt then some e.value else none
  | none => none

/-- Result of one `get_wallet_age_hours` call: the returned age in
hours, the wallet's cache entry after the call, and whether the slow
RPC path was entered. -/
structure AgeResult where
  age : ℚ
  cacheAfter : Option CacheEntry
  slowLookupUsed : Bool

/-- `get_wallet_age_hours`, embedded over one wallet's cache state.
`redisUp` is the truthiness of the global `redis` handle; when it is
false both the cache read and the cache write are skipped.  A cache hit
returns the age directly.  On a miss the slow path either yields a
first-seen timestamp — written back with a 24h TTL — or raises, in
which case the sentinel age `9999` is returned and nothing is cached. -/
def get_wallet_age_hours (redisUp : Bool) (now : ℚ) (cache : Option CacheEntry)
    (rpc : Lookup) : AgeResult :=
  match (if redisUp then cacheGet now cache else none) with
  | some first_seen_ts => ⟨(now - first_seen_ts) / 3600, cache, false⟩
  | none =>
    match rpc with
    | .ok first_seen_ts =>
        ⟨(now - first_seen_ts) / 3600,
         if redisUp then some ⟨first_seen_ts, now + CACHE_TTL_SECONDS⟩ else cache,
         true⟩
    | .err => ⟨9999, cache, true⟩

/-- The `riskProfile` fields of the broadcast effects in a trace, in
order: used to count the broadcasts an event produces. -/
def broadcastProfiles (es : List Effect) : List String :=
  es.filterMap (fun e =>
    match e with
    | .broadcast a => some a.riskProfile
    | _ => none)

lemma firstTruthy_cons_none {fs : RawEvent} {k : String} {ks : List String}
    (h : truthyGet fs k = none) : firstTruthy fs (k :: ks) = firstTruthy fs ks := by
  simp [firstTruthy, h]

lemma firstTruthy_cons_some {fs : RawEvent} {k : String} {ks : List String} {v : JVal}
    (h : truthyGet fs k = some v) : firstTruthy fs (k :: ks) = some v := by
  simp [firstTruthy, h]

lemma firstTruthy_append_none {fs : RawEvent} {ks₁ : List String} (ks₂ : List String)
    (h : ∀ x ∈ ks₁, truthyGet fs x = none) :
    firstTruthy fs (ks₁ ++ ks₂) = firstTruthy fs ks₂ := by
  induction ks₁ with
  | nil => rfl
  | cons k ks ih =>
    rw [List.cons_append, firstTruthy_cons_none (h k (by simp))]
    exact ih (fun x hx => h x (by simp [hx]))

lemma firstTruthy_eq_none {fs : RawEvent} {ks : List String}
    (h : ∀ x ∈ ks, truthyGet fs x = none) : firstTruthy fs ks = none := by
  have := @firstTruthy_append_none fs ks [] h
  simpa using this

/-- C2: `classify` is a pure function of the USD notional and account
age: for every event passing the noise filter, the broadcast alert's
`riskProfile` equals `classify`, and `classify` yields `"insider"` iff
`age_hours ≤ NEW_ACCOUNT_HOURS` and `size_usd ≥ SUSPICIOUS_THRESHOLD_USD`
(both boundaries inclusive), otherwise `"normal"`. -/
theorem classify_insider_iff (ah : ℚ) (fs : RawEvent) (t : CanonicalTrade) (side : String)
    (h1 : normalize fs = some t) (h2 : ¬ t.sizeUsd < NOISE_FLOOR)
    (h3 : extractSide fs = some side) :
    (classify t.sizeUsd ah = "insider" ↔
       ah ≤ NEW_ACCOUNT_HOURS ∧ t.sizeUsd ≥ SUSPICIOUS_THRESHOLD_USD) ∧
    (¬ (ah ≤ NEW_ACCOUNT_HOURS ∧ t.sizeUsd ≥ SUSPICIOUS_THRESHOLD_USD) →
       classify t.sizeUsd ah = "normal") ∧
    broadcastProfiles (analyze_trade true ah (.obj fs)) = [classify t.sizeUsd ah] := by
  refine ⟨?_, ?_, ?_⟩
  · constructor
    · intro h
      by_contra hc
      simp [classify, hc] at h
    · intro h
      simp [classify, h]
  · intro h
    simp [classify, h]
  · by_cases hc : ah ≤ NEW_ACCOUNT_HOURS ∧ t.sizeUsd ≥ SUSPICIOUS_THRESHOLD_USD
    · simp [analyze_trade, h1, h2, h3, hc, classify, broadcastProfiles]
    · simp [analyze_trade, h1, h2, h3, hc, classify, broadcastProfiles]

theorem classify_insider_iff_witness :
    normalize [("maker_address", JVal.str "0xabc"), ("size_usd", JVal.num 10000)] =
        some ⟨.str "0xabc", 0, 0, 10000, .str "unknown_market"⟩ ∧
    ¬ (10000 : ℚ) < NOISE_FLOOR ∧
    extractSide [("maker_address", JVal.str "0xabc"), ("size_usd", JVal.num 10000)] = some "BUY" ∧
    ((classify 10000 NEW_ACCOUNT_HOURS = "insider" ↔
        NEW_ACCOUNT_HOURS ≤ NEW_ACCOUNT_HOURS ∧ (10000 : ℚ) ≥ SUSPICIOUS_THRESHOLD_USD) ∧
      (¬ (NEW_ACCOUNT_HOURS ≤ NEW_ACCOUNT_HOURS ∧ (10000 : ℚ) ≥ SUSPICIOUS_THRESHOLD_USD) →
        classify 10000 NEW_ACCOUNT_HOURS = "normal") ∧
      broadcastProfiles (analyze_trade true NEW_ACCOUNT_HOURS
          (.obj [("maker_address", JVal.str "0xabc"), ("size_usd", JVal.num 10000)])) =
        [classify 10000 NEW_ACCOUNT_HOURS]) :=
  ⟨rfl, by decide, rfl,
   classify_insider_iff NEW_ACCOUNT_HOURS
     [("maker_address", JVal.str "0xabc"), ("size_usd", JVal.num 10000)]
     ⟨.str "0xabc", 0, 0, 10000, .str "unknown_market"⟩ "BUY" rfl (by decide) rfl⟩

/-- C8: an event whose normalized `sizeUsd` is below the noise floor is
discarded entirely: `analyze_trade` performs no persistence write and no
broadcast, whatever the resolved age or persistence health. -/
theorem noise_filter_discards (ok : Bool) (ah : ℚ) (fs : RawEvent) (t : CanonicalTrade)
    (h1 : normalize fs = some t) (h2 : t.sizeUsd < NOISE_FLOOR) :
    analyze_trade ok ah (.obj fs) = [] := by
  simp [analyze_trade, h1, h2]

theorem noise_filter_discards_witness :
    normalize [("value", JVal.num 50)] = some ⟨.str "0x...", 0, 0, 50, .str "unknown_market"⟩ ∧
    (50 : ℚ) < NOISE_FLOOR ∧
    analyze_trade true 10 (.obj [("value", JVal.num 50)]) = [] :=
  ⟨rfl, by decide, noise_filter_discards true 10 _ _ rfl (by decide)⟩

/-- C10: a higher-priority alias bound to a falsy value (zero, empty
string, `False`, `None`, empty container) is treated as absent: the
normalizer's `or`-chain moves on to the next alias in priority order
(or, when none survives, the field's default). -/
theorem falsy_alias_is_skipped (fs : RawEvent) (k : String) (ks : List String) (v : JVal)
    (h1 : getField fs k = some v) (h2 : v.truthy = false) :
    firstTruthy fs (k :: ks) = firstTruthy fs ks := by
  apply firstTruthy_cons_none
  simp [truthyGet, h1, h2]

theorem falsy_alias_is_skipped_witness :
    getField [("size", JVal.num 0), ("amount", JVal.num 5)] "size" = some (JVal.num 0) ∧
    (JVal.num 0).truthy = false ∧
    firstTruthy [("size", JVal.num 0), ("amount", JVal.num 5)] sizeAliases
        = firstTruthy [("size", JVal.num 0), ("amount", JVal.num 5)]
            ["amount", "quantity", "volume"] ∧
    (normalize [("size", JVal.num 0), ("amount", JVal.num 5)]).map CanonicalTrade.size
        = some 5 ∧
    extractTrader [("maker_address", JVal.str "")] = JVal.str "0x..." :=
  ⟨rfl, rfl,
   falsy_alias_is_skipped [("size", JVal.num 0), ("amount", JVal.num 5)] "size"
     ["amount", "quantity", "volume"] (JVal.num 0) rfl rfl,
   rfl, rfl⟩

/-- C1 (amended): for an insider-classified event, when the persistence
write succeeds `analyze_trade` performs exactly one persistence append
followed by exactly one broadcast, in that order; a failing persistence
write, however, aborts the event inside the function's single
`try/except`, so the broadcast is skipped too (the event produces no
effects at all); either way the failure is only logged and the
processing of subsequent events is unaffected. -/
theorem insider_persist_then_broadcast (ah : ℚ) (fs : RawEvent) (t : CanonicalTrade)
    (side : String) (h1 : normalize fs = some t) (h2 : ¬ t.sizeUsd < NOISE_FLOOR)
    (h3 : extractSide fs = some side)
    (h4 : ah ≤ NEW_ACCOUNT_HOURS ∧ t.sizeUsd ≥ SUSPICIOUS_THRESHOLD_USD) :
    analyze_trade true ah (.obj fs) =
      [Effect.persist t.trader t.sizeUsd ah t.market,
       Effect.broadcast ⟨t.trader, t.market, t.sizeUsd, side, ah, "insider"⟩] ∧
    analyze_trade false ah (.obj fs) = [] ∧
    (∀ rest : List (Bool × ℚ × JVal),
       processTrades ((false, ah, JVal.obj fs) :: rest) = processTrades rest) ∧
    (∀ evs₁ evs₂ : List (Bool × ℚ × JVal),
       processTrades (evs₁ ++ evs₂) = processTrades evs₁ ++ processTrades evs₂) := by
  have hfail : analyze_trade false ah (.obj fs) = [] := by
    simp [analyze_trade, h1, h2, h3, h4]
  refine ⟨?_, hfail, ?_, ?_⟩
  · simp [analyze_trade, h1, h2, h3, h4]
  · intro rest
    simp [processTrades, hfail]
  · intro evs₁ evs₂
    simp [processTrades]

theorem insider_persist_then_broadcast_witness :
    normalize [("maker_address", JVal.str "0xabc"), ("size_usd", JVal.num 15000)] =
        some ⟨.str "0xabc", 0, 0, 15000, .str "unknown_market"⟩ ∧
    ¬ (15000 : ℚ) < NOISE_FLOOR ∧
    (10 : ℚ) ≤ NEW_ACCOUNT_HOURS ∧ (15000 : ℚ) ≥ SUSPICIOUS_THRESHOLD_USD ∧
    (analyze_trade true 10
        (.obj [("maker_address", JVal.str "0xabc"), ("size_usd", JVal.num 15000)]) =
      [Effect.persist (.str "0xabc") 15000 10 (.str "unknown_market"),
       Effect.broadcast ⟨.str "0xabc", .str "unknown_market", 15000, "BUY", 10, "insider"⟩]) ∧
    analyze_trade false 10
        (.obj [("maker_address", JVal.str "0xabc"), ("size_usd", JVal.num 15000)]) = [] :=
  ⟨rfl, by decide, by decide, by decide,
   (insider_persist_then_broadcast 10
     [("maker_address", JVal.str "0xabc"), ("size_usd", JVal.num 15000)]
     ⟨.str "0xabc", 0, 0, 15000, .str "unknown_market"⟩ "BUY"
     rfl (by decide) rfl ⟨by decide, by decide⟩).1,
   (insider_persist_then_broadcast 10
     [("maker_address", JVal.str "0xabc"), ("size_usd", JVal.num 15000)]
     ⟨.str "0xabc", 0, 0, 15000, .str "unknown_market"⟩ "BUY"
     rfl (by decide) rfl ⟨by decide, by decide⟩).2.1⟩

/-- C1 counterexample: an insider event (second conjunct shows it
persists and broadcasts when the write succeeds) for which a failing
persistence write suppresses the broadcast entirely — the trace is
empty, refuting "a failure of the persistence write must not stop the
broadcast". -/
theorem persist_failure_blocks_broadcast :
    analyze_trade false 10
        (.obj [("maker_address", JVal.str "0xabc"), ("size_usd", JVal.num 15000)]) = [] ∧
    analyze_trade true 10
        (.obj [("maker_address", JVal.str "0xabc"), ("size_usd", JVal.num 15000)]) =
      [Effect.persist (.str "0xabc") 15000 10 (.str "unknown_market"),
       Effect.broadcast ⟨.str "0xabc", .str "unknown_market", 15000, "BUY", 10, "insider"⟩] :=
  ⟨rfl, rfl⟩

/-- C4 (amended): with one always-failing subscriber among `N` distinct
registered subscribers, `broadcast` still delivers the payload to the
other `N − 1`; but the failing subscriber is NOT pruned — the
per-connection exception handler is a bare `pass`, so the active set
after the call is unchanged (removal happens only when the subscriber's
own endpoint handler observes the disconnect). -/
theorem broadcast_isolates_failures (conns : List ℕ) (bad : ℕ)
    (h1 : bad ∈ conns) (h2 : conns.Nodup) :
    ((ConnectionManager.mk conns).broadcast (fun c => c ≠ bad)).1
        = conns.filter (fun c => c ≠ bad) ∧
    ((ConnectionManager.mk conns).broadcast (fun c => c ≠ bad)).1.length
        = conns.length - 1 ∧
    ((ConnectionManager.mk conns).broadcast (fun c => c ≠ bad)).2.active_connections
        = conns := by
  refine ⟨rfl, ?_, rfl⟩
  have herase : conns.erase bad = conns.filter (fun c => c ≠ bad) := by
    simpa using h2.erase_eq_filter bad
  calc (((ConnectionManager.mk conns).broadcast (fun c => c ≠ bad)).1).length
      = (conns.filter (fun c => c ≠ bad)).length := rfl
    _ = (conns.erase bad).length := by rw [herase]
    _ = conns.length - 1 := List.length_erase_of_mem h1

theorem broadcast_isolates_failures_witness :
    (2 : ℕ) ∈ [1, 2, 3] ∧ ([1, 2, 3] : List ℕ).Nodup ∧
    (((ConnectionManager.mk [1, 2, 3]).broadcast (fun c => c ≠ 2)).1
        = ([1, 2, 3].filter (fun c => c ≠ 2)) ∧
      ((ConnectionManager.mk [1, 2, 3]).broadcast (fun c => c ≠ 2)).1.length
        = ([1, 2, 3] : List ℕ).length - 1 ∧
      ((ConnectionManager.mk [1, 2, 3]).broadcast (fun c => c ≠ 2)).2.active_connections
        = [1, 2, 3]) :=
  ⟨by decide, by decide, broadcast_isolates_failures [1, 2, 3] 2 (by decide) (by decide)⟩

/-- C4 counterexample: three subscribers with subscriber 2 always
failing; `broadcast` delivers to 1 and 3, yet after the call subscriber
2 is still in the active set, refuting "the failing subscriber has been
removed from the active subscriber set". -/
theorem failing_subscriber_not_pruned :
    ((ConnectionManager.mk [1, 2, 3]).broadcast (fun c => c ≠ 2)).1 = [1, 3] ∧
    ((ConnectionManager.mk [1, 2, 3]).broadcast (fun c => c ≠ 2)).2.active_connections
        = [1, 2, 3] ∧
    2 ∈ ((ConnectionManager.mk [1, 2, 3]).broadcast (fun c => c ≠ 2)).2.active_connections :=
  ⟨by decide, rfl, by decide⟩

/-- C7 (amended): whenever the slow lookup fails on a cache miss (or
with the cache unavailable), `get_wallet_age_hours` returns the sentinel
age 9999, writes nothing to the cache, and the sentinel cannot satisfy
the new-account condition for any threshold below 9999 hours — in
particular not for the configured `NEW_ACCOUNT_HOURS = 48`.  (It is not
safe "regardless of the configured threshold": thresholds ≥ 9999 hours
are satisfied by the sentinel.) -/
theorem rpc_failure_sentinel (r : Bool) (now : ℚ) (c : Option CacheEntry)
    (h : (if r then cacheGet now c else none) = none) :
    (get_wallet_age_hours r now c .err).age = 9999 ∧
    (get_wallet_age_hours r now c .err).cacheAfter = c ∧
    (∀ thr : ℚ, thr < 9999 → ¬ (get_wallet_age_hours r now c .err).age ≤ thr) ∧
    ¬ (get_wallet_age_hours r now c .err).age ≤ NEW_ACCOUNT_HOURS := by
  have hres : get_wallet_age_hours r now c .err = ⟨9999, c, true⟩ := by
    simp [get_wallet_age_hours, h]
  refine ⟨by rw [hres], by rw [hres], ?_, ?_⟩
  · intro thr hthr
    rw [hres]
    exact not_le.mpr hthr
  · rw [hres]
    simp only [NEW_ACCOUNT_HOURS]
    norm_num

theorem rpc_failure_sentinel_witness :
    (if true then cacheGet 0 none else none) = none ∧
    ((get_wallet_age_hours true 0 none .err).age = 9999 ∧
      (get_wallet_age_hours true 0 none .err).cacheAfter = none ∧
      (∀ thr : ℚ, thr < 9999 → ¬ (get_wallet_age_hours true 0 none .err).age ≤ thr) ∧
      ¬ (get_wallet_age_hours true 0 none .err).age ≤ NEW_ACCOUNT_HOURS) :=
  ⟨rfl, rpc_failure_sentinel true 0 none rfl⟩

/-- C7 counterexample: the sentinel age returned on lookup failure is
the finite value 9999, so a configured new-account threshold of 10000
hours IS satisfied by it — refuting "the sentinel can never satisfy the
new-account condition regardless of the configured threshold value". -/
theorem sentinel_age_below_large_threshold :
    (get_wallet_age_hours true 0 none .err).age = 9999 ∧
    (get_wallet_age_hours true 0 none .err).age ≤ (10000 : ℚ) :=
  ⟨rfl, by decide⟩

/-- C9: a cache hit returns the cached first-seen timestamp's age
without entering the slow path and without touching the cache; a cache
miss followed by a successful slow lookup writes the timestamp back
with the 24-hour TTL, so that any later call before expiry — in
particular an immediately subsequent one — is a hit that skips the slow
path. -/
theorem age_resolver_cache_contract (now : ℚ) (c : Option CacheEntry) (ts : ℚ)
    (rpc : Lookup) :
    (∀ v, cacheGet now c = some v →
       get_wallet_age_hours true now c rpc = ⟨(now - v) / 3600, c, false⟩) ∧
    (cacheGet now c = none →
       (get_wallet_age_hours true now c (.ok ts)).cacheAfter
           = some ⟨ts, now + CACHE_TTL_SECONDS⟩ ∧
       (get_wallet_age_hours true now c (.ok ts)).slowLookupUsed = true ∧
       ∀ now₂ rpc₂, now₂ < now + CACHE_TTL_SECONDS →
         (get_wallet_age_hours true now₂ (some ⟨ts, now + CACHE_TTL_SECONDS⟩)
             rpc₂).slowLookupUsed = false) := by
  constructor
  · intro v hv
    simp [get_wallet_age_hours, hv]
  · intro h
    refine ⟨by simp [get_wallet_age_hours, h], by simp [get_wallet_age_hours, h], ?_⟩
    intro now₂ rpc₂ hlt
    simp [get_wallet_age_hours, cacheGet, hlt]

theorem age_resolver_cache_contract_witness :
    cacheGet 0 none = none ∧
    ((get_wallet_age_hours true 0 none (.ok 0)).cacheAfter
        = some ⟨0, 0 + CACHE_TTL_SECONDS⟩ ∧
      (get_wallet_age_hours true 0 none (.ok 0)).slowLookupUsed = true ∧
      ∀ now₂ rpc₂, now₂ < 0 + CACHE_TTL_SECONDS →
        (get_wallet_age_hours true now₂ (some ⟨0, 0 + CACHE_TTL_SECONDS⟩)
            rpc₂).slowLookupUsed = false) ∧
    (get_wallet_age_hours true 0 (some ⟨0, 0 + CACHE_TTL_SECONDS⟩) .err).slowLookupUsed
        = false :=
  ⟨rfl, (age_resolver_cache_contract 0 none 0 (.ok 0)).2 rfl,
   ((age_resolver_cache_contract 0 none 0 (.ok 0)).2 rfl).2.2 0 .err
     (by norm_num [CACHE_TTL_SECONDS])⟩

/-- C5 (amended): the Normalizer deterministically selects the alias
earliest in the documented priority order among those bound to a truthy
value (a present alias bound to a falsy value — 0, empty string, null —
is skipped, see the C10 result); and for a field all of whose aliases
are absent-or-falsy it returns the documented default without raising
(`"0x..."`, 0, 0, `size × price`, `"unknown_market"`). -/
theorem normalizer_alias_priority (fs : RawEvent) (ks₁ : List String) (k : String)
    (ks₂ : List String) (v : JVal)
    (h1 : ∀ x ∈ ks₁, truthyGet fs x = none) (h2 : truthyGet fs k = some v) :
    firstTruthy fs (ks₁ ++ k :: ks₂) = some v ∧
    ((∀ x ∈ traderAliases, truthyGet fs x = none) → extractTrader fs = .str "0x...") ∧
    ((∀ x ∈ sizeAliases, truthyGet fs x = none) → extractRawSize fs = some 0) ∧
    ((∀ x ∈ priceAliases, truthyGet fs x = none) → extractPrice fs = some 0) ∧
    ((∀ x ∈ marketAliases, truthyGet fs x = none) →
       extractMarket fs = .str "unknown_market") ∧
    (∀ s p : ℚ, (∀ x ∈ sizeUsdAliases, truthyGet fs x = none) →
       extractSizeUsd fs s p = some (s * p)) := by
  refine ⟨?_, ?_, ?_, ?_, ?_, ?_⟩
  · rw [firstTruthy_append_none _ h1, firstTruthy_cons_some h2]
  · intro h
    simp [extractTrader, firstTruthy_eq_none h]
  · intro h
    simp [extractRawSize, firstTruthy_eq_none h]
  · intro h
    simp [extractPrice, firstTruthy_eq_none h]
  · intro h
    simp [extractMarket, firstTruthy_eq_none h]
  · intro s p h
    simp [extractSizeUsd, firstTruthy_eq_none h]

theorem normalizer_alias_priority_witness :
    (∀ x ∈ (["size"] : List String),
       truthyGet [("size", JVal.num 0), ("amount", JVal.num 5)] x = none) ∧
    truthyGet [("size", JVal.num 0), ("amount", JVal.num 5)] "amount"
        = some (JVal.num 5) ∧
    firstTruthy [("size", JVal.num 0), ("amount", JVal.num 5)]
        (["size"] ++ "amount" :: ["quantity", "volume"]) = some (JVal.num 5) :=
  ⟨fun x hx => by
     simp only [List.mem_singleton] at hx
     subst hx
     rfl,
   rfl,
   (normalizer_alias_priority [("size", JVal.num 0), ("amount", JVal.num 5)]
     ["size"] "amount" ["quantity", "volume"] (JVal.num 5)
     (fun x hx => by
       simp only [List.mem_singleton] at hx
       subst hx
       rfl)
     rfl).1⟩

/-- C5 counterexample: in `{size: 0, amount: 5}` both the `size` and
`amount` aliases are present, and `size` is earliest in the priority
order, yet the normalizer selects `amount`: the canonical size is 5,
not 0 — refuting "selects the alias earliest in the documented priority
order" for every event in which multiple aliases are present. -/
theorem present_alias_not_selected :
    getField [("size", JVal.num 0), ("amount", JVal.num 5)] "size"
        = some (JVal.num 0) ∧
    getField [("size", JVal.num 0), ("amount", JVal.num 5)] "amount"
        = some (JVal.num 5) ∧
    (normalize [("size", JVal.num 0), ("amount", JVal.num 5)]).map CanonicalTrade.size
        = some 5 ∧
    some (5 : ℚ) ≠ some (0 : ℚ) :=
  ⟨rfl, rfl, rfl, by decide⟩

lemma one_le_pow_three_halves (k : ℕ) : (1 : ℚ) ≤ (3 / 2) ^ k :=
  one_le_pow₀ (by norm_num)

/-- Folding one backoff step under the cap: multiplying a capped delay
by 1.5 and re-capping agrees with capping the uncapped product. -/
lemma backoffStep_min_mul (a : ℚ) (c : ℚ) (hc : 1 ≤ c) :
    min (min a MAX_RETRY_DELAY * c) MAX_RETRY_DELAY = min (a * c) MAX_RETRY_DELAY := by
  rcases le_total a MAX_RETRY_DELAY with h | h
  · rw [min_eq_left h]
  · have hM : (0 : ℚ) ≤ MAX_RETRY_DELAY := by norm_num [MAX_RETRY_DELAY]
    have h1 : MAX_RETRY_DELAY ≤ MAX_RETRY_DELAY * c := le_mul_of_one_le_right hM hc
    have h2 : MAX_RETRY_DELAY * c ≤ a * c :=
      mul_le_mul_of_nonneg_right h (le_trans zero_le_one hc)
    rw [min_eq_right h, min_eq_right h1, min_eq_right (le_trans h1 h2)]

/-- The `k`-th sleep of an uninterrupted run of generic connect
failures, starting from delay `d`. -/
lemma sentinelWaits_replicate_get (k : ℕ) : ∀ (K : ℕ) (d : ℚ), 0 ≤ d →
    d ≤ MAX_RETRY_DELAY → k < K →
    (sentinelWaits d (List.replicate K .connectFail))[k]? =
      some (min (d * (3 / 2) ^ k) MAX_RETRY_DELAY) := by
  induction k with
  | zero =>
    intro K d h0 hM hk
    cases K with
    | zero => exact absurd hk (by omega)
    | succ K' =>
      rw [List.replicate_succ]
      simp [sentinelWaits, min_eq_left hM]
  | succ k ih =>
    intro K d h0 hM hk
    cases K with
    | zero => exact absurd hk (by omega)
    | succ K' =>
      rw [List.replicate_succ]
      have hstep : sentinelWaits d (.connectFail :: List.replicate K' .connectFail) =
          d :: sentinelWaits (backoffStep d) (List.replicate K' .connectFail) := rfl
      rw [hstep, List.getElem?_cons_succ]
      rw [ih K' (backoffStep d) (le_min (by positivity) (by norm_num [MAX_RETRY_DELAY]))
            (min_le_right _ _) (by omega)]
      congr 1
      calc min (backoffStep d * (3 / 2) ^ k) MAX_RETRY_DELAY
          = min (d * (3 / 2) * (3 / 2) ^ k) MAX_RETRY_DELAY :=
            backoffStep_min_mul (d * (3 / 2)) _ (one_le_pow_three_halves k)
        _ = min (d * (3 / 2) ^ (k + 1)) MAX_RETRY_DELAY := by ring_nf

/-- C3 (amended): starting fresh, the sleep between the `(K)`-th failed
connection attempt and the `(K+1)`-th attempt is
`min(5 × 1.5^(K−1), 60)` seconds — i.e. the first retry waits 5s, not
7.5s: the loop sleeps the current `retry_delay` and only then multiplies
it.  A successful connection resets the delay to the 5-second floor (the
sleep following its eventual closure is 5s), and an invalid-URI error
sleeps a fixed 30s without advancing the exponential schedule. -/
theorem backoff_schedule (K k : ℕ) (hk : k < K) :
    (sentinelWaits RETRY_FLOOR (List.replicate K .connectFail))[k]? =
      some (min (RETRY_FLOOR * (3 / 2) ^ k) MAX_RETRY_DELAY) ∧
    (∀ (d : ℚ) (rest : List ConnOutcome),
       sentinelWaits d (.connectedThenClosed :: rest) =
         RETRY_FLOOR :: sentinelWaits (backoffStep RETRY_FLOOR) rest) ∧
    (∀ (d : ℚ) (rest : List ConnOutcome),
       sentinelWaits d (.invalidURI :: rest) = 30 :: sentinelWaits d rest) :=
  ⟨sentinelWaits_replicate_get k K RETRY_FLOOR (by norm_num [RETRY_FLOOR])
     (by norm_num [RETRY_FLOOR, MAX_RETRY_DELAY]) hk,
   fun _ _ => rfl, fun _ _ => rfl⟩

theorem backoff_schedule_witness :
    (2 : ℕ) < 3 ∧
    ((sentinelWaits RETRY_FLOOR (List.replicate 3 .connectFail))[2]? =
        some (min (RETRY_FLOOR * (3 / 2) ^ 2) MAX_RETRY_DELAY) ∧
      (∀ (d : ℚ) (rest : List ConnOutcome),
         sentinelWaits d (.connectedThenClosed :: rest) =
           RETRY_FLOOR :: sentinelWaits (backoffStep RETRY_FLOOR) rest) ∧
      (∀ (d : ℚ) (rest : List ConnOutcome),
         sentinelWaits d (.invalidURI :: rest) = 30 :: sentinelWaits d rest)) :=
  ⟨by decide, backoff_schedule 3 2 (by decide)⟩

/-- C3 counterexample: after K = 1 consecutive connect failure the loop
sleeps 5 seconds (the un-multiplied initial delay), not
`min(5 × 1.5^1, 60) = 7.5` seconds as the claim's formula requires. -/
theorem backoff_first_wait_is_floor :
    sentinelWaits RETRY_FLOOR [.connectFail] = [5] ∧
    (5 : ℚ) ≠ min (RETRY_FLOOR * (3 / 2) ^ 1) MAX_RETRY_DELAY := by
  refine ⟨rfl, ?_⟩
  have : RETRY_FLOOR * (3 / 2 : ℚ) ^ 1 = 15 / 2 := by norm_num [RETRY_FLOOR]
  rw [this, min_eq_left (by norm_num [MAX_RETRY_DELAY])]
  norm_num

/-- C6 (amended): a top-level array is dispatched as one event per DICT
element (non-dict elements are skipped); a dict carrying a top-level
trade marker (`type` in `fill/trade/match`, or a `maker_address` or
`size` key) is one event; a dict without such markers is split into one
event per element of its `data`-else-`payload` list ONLY when it is
recognizably trade-related (`channel == 'trades'` or the word `trades`
occurring in its text) — otherwise it is attempted as a single
best-effort event; a non-dict, non-array payload (number, string) is
dropped without dispatch; and an error processing one event never
aborts its siblings (batch effects concatenate per event). -/
theorem dispatch_shapes (fs : RawEvent) (xs ys : List JVal) :
    dispatchMessage (.arr xs) = xs.filter JVal.isObj ∧
    ((isTradeTyped fs || (getField fs "maker_address").isSome
        || (getField fs "size").isSome) = true →
       dispatchMessage (.obj fs) = [.obj fs]) ∧
    ((isTradeTyped fs || (getField fs "maker_address").isSome
        || (getField fs "size").isSome) = false →
       (channelIsTrades fs || jvalHasTradesWord (.obj fs)) = true →
       (getField fs "data").getD ((getField fs "payload").getD (.arr [.obj fs]))
           = .arr ys →
       dispatchMessage (.obj fs) = ys) ∧
    ((isTradeTyped fs || (getField fs "maker_address").isSome
        || (getField fs "size").isSome) = false →
       (channelIsTrades fs || jvalHasTradesWord (.obj fs)) = false →
       dispatchMessage (.obj fs) = [.obj fs]) ∧
    (∀ q : ℚ, dispatchMessage (.num q) = []) ∧
    (∀ s : String, dispatchMessage (.str s) = []) ∧
    (∀ evs₁ evs₂ : List (Bool × ℚ × JVal),
       processTrades (evs₁ ++ evs₂) = processTrades evs₁ ++ processTrades evs₂) := by
  refine ⟨rfl, ?_, ?_, ?_, fun _ => rfl, fun _ => rfl, ?_⟩
  · intro h
    simp [dispatchMessage, h]
  · intro h1 h2 h3
    simp [dispatchMessage, h1, h2, h3]
  · intro h1 h2
    simp [dispatchMessage, h1, h2]
  · intro evs₁ evs₂
    simp [processTrades]

theorem dispatch_shapes_witness :
    (isTradeTyped [("channel", JVal.str "trades"),
          ("payload", JVal.arr [.obj [("size", JVal.num 5000)], .num 7])]
       || (getField [("channel", JVal.str "trades"),
             ("payload", JVal.arr [.obj [("size", JVal.num 5000)], .num 7])]
             "maker_address").isSome
       || (getField [("channel", JVal.str "trades"),
             ("payload", JVal.arr [.obj [("size", JVal.num 5000)], .num 7])]
             "size").isSome) = false ∧
    (channelIsTrades [("channel", JVal.str "trades"),
        ("payload", JVal.arr [.obj [("size", JVal.num 5000)], .num 7])]
       || jvalHasTradesWord (.obj [("channel", JVal.str "trades"),
            ("payload", JVal.arr [.obj [("size", JVal.num 5000)], .num 7])])) = true ∧
    dispatchMessage (.obj [("channel", JVal.str "trades"),
        ("payload", JVal.arr [.obj [("size", JVal.num 5000)], .num 7])])
      = [.obj [("size", JVal.num 5000)], .num 7] ∧
    dispatchMessage (.arr [.obj [("size", JVal.num 5000)], .num 7])
      = [.obj [("size", JVal.num 5000)]] :=
  ⟨rfl, rfl,
   (dispatch_shapes [("channel", JVal.str "trades"),
       ("payload", JVal.arr [.obj [("size", JVal.num 5000)], .num 7])]
     [] [.obj [("size", JVal.num 5000)], .num 7]).2.2.1 rfl rfl rfl,
   (dispatch_shapes [("channel", JVal.str "trades"),
       ("payload", JVal.arr [.obj [("size", JVal.num 5000)], .num 7])]
     [.obj [("size", JVal.num 5000)], .num 7] []).1⟩

/-- C6 counterexample: the dict `{payload: [t₁, t₂]}` carries a nested
list under a payload field yet is dispatched as ONE event (the whole
dict) — not one event per element — because it lacks the `trades`
marker the code requires; and the parsed scalar payload `5` is dropped
entirely, refuting "no parsed message is dropped purely for being of
unrecognized shape". -/
theorem payload_list_not_split :
    dispatchMessage (.obj [("payload",
        JVal.arr [.obj [("size", JVal.num 5000)], .obj [("size", JVal.num 6000)]])])
      = [.obj [("payload",
          JVal.arr [.obj [("size", JVal.num 5000)], .obj [("size", JVal.num 6000)]])]] ∧
    [JVal.obj [("payload",
        JVal.arr [.obj [("size", JVal.num 5000)], .obj [("size", JVal.num 6000)]])]]
      ≠ [JVal.obj [("size", JVal.num 5000)], JVal.obj [("size", JVal.num 6000)]] ∧
    dispatchMessage (.num 5) = [] := by
  refine ⟨?_, by simp, rfl⟩
  simp [dispatchMessage, jvalHasTradesWord, objHasTradesWord, listHasTradesWord,
        hasTradesSub, isTradeTyped, channelIsTrades, getField]
  decide

end Sentinel
